import Mathlib

/-!
Verification development for the daily-transit ICS reader plugin
(`src/main.ts`).  The plugin keeps an in-memory list of calendar events,
rebuilt by `loadEvents` from the `.ics` files under a configured vault
directory, and answers date queries (`getEventsForDate`,
`getTodaysEvents`) rendered as markdown tables (`formatEvents`, the
templater command body).

The embedding models JavaScript `Date` values by their local calendar
and clock fields, and the third-party `ical.js` conversion of one
`VEVENT` component by an `Option`-valued function (a component missing
its start or end date-time makes the conversion throw, which `Option`
models as `none`).
-/

namespace DailyTransit

/-- A JavaScript `Date`, modelled by the local calendar-day and
local-clock fields that the plugin observes (`toDateString` reads the
year, month and day; date-fns `HH:mm` reads the hour and minute). -/
structure DateTime where
  year : Nat
  month : Nat
  day : Nat
  hour : Nat
  minute : Nat
deriving DecidableEq, Repr

/-- Models `Date.prototype.toDateString()` up to equality of its output:
two dates have the same `toDateString` string exactly when they share the
local (year, month, day) triple — the weekday and month names printed by
JavaScript are functions of that triple, and the time of day is
truncated away. -/
def toDateString (d : DateTime) : Nat × Nat × Nat :=
  (d.year, d.month, d.day)

/-- The plugin's `Event` interface (src/main.ts lines 25-29).  The field
`end` is a Lean keyword and is embedded as `end_`. -/
structure Event where
  summary : String
  start : DateTime
  end_ : DateTime
deriving DecidableEq, Repr

/-- Two-digit zero padding, as performed by the date-fns `HH` and `mm`
format tokens. -/
def pad2 (n : Nat) : String :=
  if n < 10 then "0" ++ toString n else toString n

/-- Models date-fns `format(date, 'HH:mm')`: the start instant rendered
on the 24-hour local clock. -/
def formatHHmm (d : DateTime) : String :=
  pad2 d.hour ++ ":" ++ pad2 d.minute

/-- JavaScript `String.prototype.startsWith`: the receiver's character
sequence begins with the argument's character sequence. -/
def jsStartsWith (s pre : String) : Bool :=
  pre.data.isPrefixOf s.data

/-- The plugin settings (src/main.ts lines 21-23). -/
structure ICSReaderSettings where
  icsDirectory : String
deriving DecidableEq, Repr

/-- One raw `VEVENT` component as produced by `ICAL.parse` /
`getAllSubcomponents('vevent')`: the properties the plugin reads, each
possibly absent in a malformed component. -/
structure RawComponent where
  summary : Option String
  dtstart : Option DateTime
  dtend : Option DateTime
deriving DecidableEq, Repr

/-- Outcome of obtaining one vault file's parsed component tree:
`vault.read` may throw (`unreadable`), `ICAL.parse` / `new
ICAL.Component` may throw (`unparseable`), or the file parses into a
list of `vevent` subcomponents in document order. -/
inductive DocResult where
  | unreadable
  | unparseable
  | parsed (components : List RawComponent)
deriving DecidableEq, Repr

/-- A vault file as seen by `loadEvents`: its path, its extension, and
what reading plus parsing it yields. -/
structure ICSFile where
  path : String
  extension : String
  doc : DocResult
deriving DecidableEq, Repr

/-- Modelled from the spec: the `ical.js` conversion of one event
component (`new ICAL.Event(vevent)` followed by reading `summary`,
`startDate.toJSDate()`, `endDate.toJSDate()`, src/main.ts lines
129-134); `ical.js` itself is not part of this repository.  A missing
summary yields the empty string; a missing start or end date-time is an
unrecoverable error for the component (the property access throws),
modelled as `none`. -/
def toEvent (c : RawComponent) : Option Event :=
  match c.dtstart, c.dtend with
  | some s, some e => some { summary := c.summary.getD "", start := s, end_ := e }
  | _, _ => none

/-- Models `vevents.map(...)` (src/main.ts lines 128-135): JavaScript
`Array.prototype.map` is all-or-nothing under exceptions — if converting
any element throws, the whole map call throws and no array is
produced. -/
def mapToEvents : List RawComponent → Option (List Event)
  | [] => some []
  | c :: cs =>
    match toEvent c, mapToEvents cs with
    | some e, some es => some (e :: es)
    | _, _ => none

/-- The per-file body of the `loadEvents` loop (src/main.ts lines
111-139): read, parse, extract the `vevent` components and convert them.
The try/catch wraps the whole file, so any failure — an unreadable file,
an unparseable file, or an exception thrown while mapping the
components — makes this file contribute no events at all. -/
def processFile (f : ICSFile) : List Event :=
  match f.doc with
  | DocResult.unreadable => []
  | DocResult.unparseable => []
  | DocResult.parsed comps => (mapToEvents comps).getD []

/-- The mutable plugin state read and written by the methods: the
settings and the `events` collection (src/main.ts lines 36-37). -/
structure PluginState where
  settings : ICSReaderSettings
  events : List Event
deriving DecidableEq, Repr

/-- The vault-file filter of src/main.ts line 107:
`file.path.startsWith(icsDirectory) && file.extension === 'ics'`. -/
def isICSFileIn (dir : String) (f : ICSFile) : Bool :=
  jsStartsWith f.path dir && f.extension == "ics"

/-- `loadEvents` (src/main.ts lines 97-147).  An unset (empty string,
hence falsy) directory returns early before touching `this.events`;
otherwise the collection is cleared (`this.events = []`, line 110) and
rebuilt by appending each surviving file's contribution in file
order. -/
def loadEvents (vaultFiles : List ICSFile) (st : PluginState) : PluginState :=
  if st.settings.icsDirectory = "" then st
  else
    let icsFiles := vaultFiles.filter (isICSFileIn st.settings.icsDirectory)
    { st with events := icsFiles.foldl (fun acc f => acc ++ processFile f) [] }

/-- The states of `this.events` observable from outside `loadEvents`
while it is in progress: the loop awaits `vault.read` once per file
(src/main.ts line 114), so between the clear at line 110 and completion
the event loop can run a query after each per-file append.  The
snapshots are therefore the empty collection followed by each partial
concatenation; on the early (unset-directory) return the only observable
state is the untouched previous collection. -/
def loadSnapshots (vaultFiles : List ICSFile) (st : PluginState) : List (List Event) :=
  if st.settings.icsDirectory = "" then [st.events]
  else
    let icsFiles := vaultFiles.filter (isICSFileIn st.settings.icsDirectory)
    List.scanl (fun acc f => acc ++ processFile f) [] icsFiles

/-- `getTodaysEvents` (src/main.ts lines 187-193); the current date is
supplied by the clock collaborator (`new Date()`). -/
def getTodaysEvents (events : List Event) (today : DateTime) : List Event :=
  events.filter (fun event => toDateString event.start == toDateString today)

/-- `getEventsForDate` (src/main.ts lines 211-216). -/
def getEventsForDate (events : List Event) (date : DateTime) : List Event :=
  events.filter (fun event => toDateString event.start == toDateString date)

/-- `getEventsForDate` as a method on the plugin state: it reads
`this.events` and performs no assignment, so the state component of the
result is the unchanged input state. -/
def getEventsForDateS (st : PluginState) (date : DateTime) : List Event × PluginState :=
  (getEventsForDate st.events date, st)

/-- `formatEvents` (src/main.ts lines 219-231). -/
def formatEvents (events : List Event) : String :=
  if events.length = 0 then "No events for this date."
  else
    events.foldl
      (fun eventString event =>
        eventString ++ ("| " ++ formatHHmm event.start ++ " | " ++ event.summary ++ " |\n"))
      ("| Time | Event |\n|------|-------|\n")

/-- The string-building body shared verbatim by the
`getTodaysEventsForTemplater` method (src/main.ts lines 197-207) and the
`get-todays-events-for-templater` command callback (lines 65-75), as a
function of the already-filtered list of today's events. -/
def buildTodaysEventString (todaysEvents : List Event) : String :=
  if todaysEvents.length = 0 then "No events for today."
  else
    todaysEvents.foldl
      (fun eventString event =>
        eventString ++ ("| " ++ formatHHmm event.start ++ " | " ++ event.summary ++ " |\n"))
      ("| Time | Event |\n|------|-------|\n")

/-- `getTodaysEventsForTemplater` (src/main.ts lines 195-208). -/
def getTodaysEventsForTemplater (events : List Event) (today : DateTime) : String :=
  buildTodaysEventString (getTodaysEvents events today)

/-- One rendered table row, as the source's template literal
`| ${startTime} | ${event.summary} |\n` builds it. -/
def eventRow (event : Event) : String :=
  "| " ++ formatHHmm event.start ++ " | " ++ event.summary ++ " |\n"

/-- The concatenation of the rendered rows of a list of events, in list
order. -/
def rowsString : List Event → String
  | [] => ""
  | e :: l => eventRow e ++ rowsString l

/-! Concrete sample data used by witnesses and counterexamples. -/

/-- A sample well-formed event. -/
def sampleEvent : Event :=
  { summary := "Standup", start := ⟨2024, 1, 15, 9, 0⟩, end_ := ⟨2024, 1, 15, 9, 30⟩ }

/-- A second sample event. -/
def reviewEvent : Event :=
  { summary := "Review", start := ⟨2024, 1, 15, 14, 0⟩, end_ := ⟨2024, 1, 15, 15, 0⟩ }

/-- A well-formed raw event component. -/
def goodComp : RawComponent :=
  { summary := some "Standup", dtstart := some ⟨2024, 1, 15, 9, 0⟩, dtend := some ⟨2024, 1, 15, 9, 30⟩ }

/-- A second well-formed raw event component. -/
def reviewComp : RawComponent :=
  { summary := some "Review", dtstart := some ⟨2024, 1, 15, 14, 0⟩, dtend := some ⟨2024, 1, 15, 15, 0⟩ }

/-- A malformed raw event component: no start date-time. -/
def badComp : RawComponent :=
  { summary := some "Broken", dtstart := none, dtend := some ⟨2024, 1, 15, 10, 0⟩ }

/-- Sample settings with a configured directory. -/
def sampleSettings : ICSReaderSettings := ⟨"calendars"⟩

/-- Sample settings with the directory unset. -/
def emptySettings : ICSReaderSettings := ⟨""⟩

/-- A vault file containing one well-formed component. -/
def fileA : ICSFile :=
  { path := "calendars/a.ics", extension := "ics", doc := DocResult.parsed [goodComp] }

/-- A second vault file containing one well-formed component. -/
def fileB : ICSFile :=
  { path := "calendars/b.ics", extension := "ics", doc := DocResult.parsed [reviewComp] }

/-- A vault file mixing one well-formed and one malformed component. -/
def mixedFile : ICSFile :=
  { path := "calendars/mixed.ics", extension := "ics", doc := DocResult.parsed [goodComp, badComp] }

/-- A vault file whose read fails. -/
def brokenFile : ICSFile :=
  { path := "calendars/broken.ics", extension := "ics", doc := DocResult.unreadable }

/-! Helper lemmas shared by the claim theorems. -/

/-- The day-equality test of the two query methods compares exactly the
local (year, month, day) components. -/
lemma toDateString_beq (p q : DateTime) :
    (toDateString p == toDateString q)
      = (p.year == q.year && p.month == q.month && p.day == q.day) := by
  simp [toDateString, instBEqProd, Bool.and_assoc]

/-- The appending fold over files equals the accumulator followed by the
flattened per-file contributions. -/
lemma foldl_append_flatten (g : ICSFile → List Event) (l : List ICSFile) :
    ∀ acc : List Event,
      l.foldl (fun a f => a ++ g f) acc = acc ++ (l.map g).flatten := by
  induction l with
  | nil => intro acc; simp
  | cons f fs ih => intro acc; simp [ih]

/-! Claim theorems. -/

/-- C1: the date query returns exactly the events whose start instant
shares the target date's local (year, month, day) triple — the time of
day is truncated by the comparison — and the result is a stable
subsequence of the collection, kept in collection order rather than
re-sorted by time-of-day. -/
theorem getEventsForDate_same_day (events : List Event) (d : DateTime) :
    getEventsForDate events d
      = events.filter
          (fun e => e.start.year == d.year && e.start.month == d.month && e.start.day == d.day)
  ∧ (getEventsForDate events d).Sublist events :=
  ⟨List.filter_congr (fun e _ => toDateString_beq e.start d), List.filter_sublist _⟩

/-- C8: the date query is idempotent and deterministic over a fixed
collection: it leaves the plugin state unchanged, so a second call with
the same date and no intervening load returns an equal sequence. -/
theorem getEventsForDate_idempotent (st : PluginState) (d : DateTime) :
    (getEventsForDateS ((getEventsForDateS st d).2) d).1 = (getEventsForDateS st d).1
  ∧ (getEventsForDateS st d).2 = st :=
  ⟨rfl, rfl⟩

/-- C9: with the directory setting empty, `loadEvents` returns before
touching the collection: the whole plugin state, stale events included,
is left unchanged — neither cleared nor replaced. -/
theorem loadEvents_unset_directory (vaultFiles : List ICSFile) (st : PluginState)
    (h : st.settings.icsDirectory = "") :
    loadEvents vaultFiles st = st := by
  simp [loadEvents, h]

/-- Witness for `loadEvents_unset_directory` at a concrete stale state. -/
theorem loadEvents_unset_directory_witness :
    (PluginState.mk emptySettings [sampleEvent]).settings.icsDirectory = ""
  ∧ loadEvents [fileA] (PluginState.mk emptySettings [sampleEvent])
      = PluginState.mk emptySettings [sampleEvent] :=
  ⟨rfl, loadEvents_unset_directory [fileA] (PluginState.mk emptySettings [sampleEvent]) rfl⟩

/-- C2: with a configured directory, one `loadEvents` call rebuilds the
collection as the concatenation, in file order, of the per-file event
lists, keeps the settings, and produces a result independent of the
previous collection — a wholesale replacement, not a merge or patch. -/
theorem loadEvents_rebuild (vaultFiles : List ICSFile) (st : PluginState)
    (h : st.settings.icsDirectory ≠ "") :
    (loadEvents vaultFiles st).events
      = ((vaultFiles.filter (isICSFileIn st.settings.icsDirectory)).map processFile).flatten
  ∧ (loadEvents vaultFiles st).settings = st.settings
  ∧ ∀ prior : List Event,
      (loadEvents vaultFiles (PluginState.mk st.settings prior)).events
        = (loadEvents vaultFiles st).events := by
  refine ⟨?_, ?_, ?_⟩ <;> simp [loadEvents, h, foldl_append_flatten]

/-- Witness for `loadEvents_rebuild` at a concrete state and file list. -/
theorem loadEvents_rebuild_witness :
    (PluginState.mk sampleSettings [reviewEvent]).settings.icsDirectory ≠ ""
  ∧ ((loadEvents [fileA] (PluginState.mk sampleSettings [reviewEvent])).events
       = (([fileA].filter (isICSFileIn sampleSettings.icsDirectory)).map processFile).flatten
     ∧ (loadEvents [fileA] (PluginState.mk sampleSettings [reviewEvent])).settings
         = sampleSettings
     ∧ ∀ prior : List Event,
         (loadEvents [fileA] (PluginState.mk sampleSettings prior)).events
           = (loadEvents [fileA] (PluginState.mk sampleSettings [reviewEvent])).events) :=
  ⟨by decide, loadEvents_rebuild [fileA] (PluginState.mk sampleSettings [reviewEvent]) (by decide)⟩

/-- C4: a file that is unreadable or unparseable contributes nothing,
and removing it from the vault list leaves the loaded collection
unchanged: every remaining file is still processed and the collection
holds exactly the events of the files that succeeded, with `loadEvents`
a total function that never raises. -/
theorem loadEvents_isolates_failed_docs (files₁ files₂ : List ICSFile) (bad : ICSFile)
    (st : PluginState) (h : st.settings.icsDirectory ≠ "")
    (hbad : bad.doc = DocResult.unreadable ∨ bad.doc = DocResult.unparseable) :
    processFile bad = []
  ∧ (loadEvents (files₁ ++ bad :: files₂) st).events
      = (loadEvents (files₁ ++ files₂) st).events := by
  have hb : processFile bad = [] := by
    rcases hbad with h1 | h1 <;> simp [processFile, h1]
  refine ⟨hb, ?_⟩
  simp only [loadEvents, if_neg h]
  by_cases hc : isICSFileIn st.settings.icsDirectory bad = true
  · simp [List.filter_append, List.filter_cons, hc, hb, foldl_append_flatten]
  · simp [List.filter_append, List.filter_cons, hc, foldl_append_flatten]

/-- Witness for `loadEvents_isolates_failed_docs`: one readable file and
one unreadable file. -/
theorem loadEvents_isolates_failed_docs_witness :
    (PluginState.mk sampleSettings []).settings.icsDirectory ≠ ""
  ∧ (brokenFile.doc = DocResult.unreadable ∨ brokenFile.doc = DocResult.unparseable)
  ∧ (processFile brokenFile = []
     ∧ (loadEvents ([fileA] ++ brokenFile :: [fileB]) (PluginState.mk sampleSettings [])).events
         = (loadEvents ([fileA] ++ [fileB]) (PluginState.mk sampleSettings [])).events) :=
  ⟨by decide, Or.inl rfl,
    loadEvents_isolates_failed_docs [fileA] [fileB] brokenFile
      (PluginState.mk sampleSettings []) (by decide) (Or.inl rfl)⟩

/-- Converting every component of a list succeeds exactly when each
component converts, and then the mapped list is the ordered list of
converted events, one per component. -/
lemma mapToEvents_all_some (comps : List RawComponent)
    (h : ∀ c ∈ comps, (toEvent c).isSome = true) :
    mapToEvents comps = some (comps.filterMap toEvent)
  ∧ (comps.filterMap toEvent).length = comps.length := by
  induction comps with
  | nil => simp [mapToEvents]
  | cons c cs ih =>
    have hc : (toEvent c).isSome = true := h c (List.mem_cons_self ..)
    obtain ⟨e, he⟩ := Option.isSome_iff_exists.mp hc
    have ih2 := ih (fun x hx => h x (List.mem_cons_of_mem _ hx))
    simp [mapToEvents, he, ih2.1, List.filterMap_cons, ih2.2]

/-- A single failing conversion makes the whole `Array.prototype.map`
call throw: no list of events is produced. -/
lemma mapToEvents_of_none (comps : List RawComponent)
    (h : ∃ c ∈ comps, toEvent c = none) :
    mapToEvents comps = none := by
  induction comps with
  | nil => simp at h
  | cons c cs ih =>
    rcases h with ⟨x, hx, hnone⟩
    rcases List.mem_cons.mp hx with h1 | h1
    · subst h1
      simp [mapToEvents, hnone]
    · have h2 := ih ⟨x, h1, hnone⟩
      cases he : toEvent c <;> simp [mapToEvents, he, h2]

/-- C3 counterexample: a document holding one well-formed component and
one malformed component (N = 1, M = 1) loads zero events rather than
N = 1 — the malformed component's conversion error empties the whole
document's contribution. -/
theorem loadEvents_malformed_component_counterexample :
    (toEvent goodComp).isSome = true
  ∧ toEvent badComp = none
  ∧ (loadEvents [mixedFile] (PluginState.mk sampleSettings [])).events = []
  ∧ (loadEvents [mixedFile] (PluginState.mk sampleSettings [])).events.length ≠ 1 := by
  refine ⟨rfl, rfl, ?_, ?_⟩ <;> decide

/-- C3 amended: a document all of whose N components are well-formed
contributes exactly those N events in order; a document containing any
malformed component contributes zero events — the per-file try/catch of
`loadEvents` makes one conversion error abort the containing document's
whole contribution (other documents are unaffected). -/
theorem processFile_contribution (f : ICSFile) (comps : List RawComponent)
    (hdoc : f.doc = DocResult.parsed comps) :
    ((∀ c ∈ comps, (toEvent c).isSome = true) →
        processFile f = comps.filterMap toEvent
      ∧ (processFile f).length = comps.length)
  ∧ ((∃ c ∈ comps, toEvent c = none) → processFile f = []) := by
  constructor
  · intro hall
    have h2 := mapToEvents_all_some comps hall
    simp [processFile, hdoc, h2.1, h2.2]
  · intro hsome
    simp [processFile, hdoc, mapToEvents_of_none comps hsome]

/-- Witness for `processFile_contribution`: a file with one well-formed
component contributes exactly that one converted event. -/
theorem processFile_contribution_witness :
    fileA.doc = DocResult.parsed [goodComp]
  ∧ (∀ c ∈ ([goodComp] : List RawComponent), (toEvent c).isSome = true)
  ∧ processFile fileA = ([goodComp] : List RawComponent).filterMap toEvent
  ∧ (processFile fileA).length = ([goodComp] : List RawComponent).length :=
  ⟨rfl, by decide,
    ((processFile_contribution fileA [goodComp] rfl).1 (by decide)).1,
    ((processFile_contribution fileA [goodComp] rfl).1 (by decide)).2⟩

/-- The accumulator comes first in the result of the appending fold. -/
lemma append_foldl_pref (g : ICSFile → List Event) (l : List ICSFile) :
    ∀ acc : List Event, acc <+: l.foldl (fun a f => a ++ g f) acc := by
  induction l with
  | nil => intro acc; exact List.prefix_rfl
  | cons f fs ih =>
    intro acc
    exact (List.prefix_append acc (g f)).trans (ih (acc ++ g f))

/-- Every intermediate state of the appending fold comes first in its
final result. -/
lemma mem_scanl_pref (g : ICSFile → List Event) (l : List ICSFile) :
    ∀ (acc s : List Event),
      s ∈ List.scanl (fun a f => a ++ g f) acc l →
        s <+: l.foldl (fun a f => a ++ g f) acc := by
  induction l with
  | nil =>
    intro acc s hs
    rw [List.scanl_nil, List.mem_singleton] at hs
    subst hs
    exact List.prefix_rfl
  | cons f fs ih =>
    intro acc s hs
    rw [List.scanl_cons, List.singleton_append, List.mem_cons] at hs
    rcases hs with h1 | h1
    · subst h1
      exact append_foldl_pref g (f :: fs) _
    · simpa using ih (acc ++ g f) s h1

/-- The final value of the appending fold is one of its intermediate
states. -/
lemma foldl_mem_scanl (g : ICSFile → List Event) (l : List ICSFile) :
    ∀ acc : List Event,
      l.foldl (fun a f => a ++ g f) acc ∈ List.scanl (fun a f => a ++ g f) acc l := by
  induction l with
  | nil => intro acc; simp
  | cons f fs ih =>
    intro acc
    rw [List.scanl_cons]
    simp only [List.foldl_cons]
    exact List.mem_cons_of_mem _ (ih (acc ++ g f))

/-- C7 counterexample: with a previous collection of one event and two
files each contributing one event, a query running at an await boundary
inside `loadEvents` can observe a snapshot that is neither the previous
collection nor the final replacement — the code clears `this.events` and
appends per file across awaited reads, so the replacement is not atomic
from a query's perspective. -/
theorem loadEvents_atomic_replacement_counterexample :
    ¬ ∀ s ∈ loadSnapshots [fileA, fileB] (PluginState.mk sampleSettings [reviewEvent]),
        s = (PluginState.mk sampleSettings [reviewEvent]).events
      ∨ s = (loadEvents [fileA, fileB] (PluginState.mk sampleSettings [reviewEvent])).events := by
  decide

/-- C7 amended: a query running during a load can observe the cleared or
partially rebuilt collection, but nothing worse: every mid-load
observation is either the untouched previous collection (the
unset-directory early return) or a prefix, in order, of the final
replacement collection, and the final collection itself is the last
observable snapshot. -/
theorem loadEvents_snapshots (vaultFiles : List ICSFile) (st : PluginState) :
    (∀ s ∈ loadSnapshots vaultFiles st,
        s <+: (loadEvents vaultFiles st).events ∨ s = st.events)
  ∧ (loadEvents vaultFiles st).events ∈ loadSnapshots vaultFiles st := by
  by_cases h : st.settings.icsDirectory = ""
  · constructor
    · intro s hs
      right
      simp only [loadSnapshots, if_pos h, List.mem_singleton] at hs
      exact hs
    · simp [loadSnapshots, loadEvents, h]
  · constructor
    · intro s hs
      left
      simp only [loadSnapshots, if_neg h] at hs
      simp only [loadEvents, if_neg h]
      exact mem_scanl_pref processFile _ _ s hs
    · simp only [loadSnapshots, loadEvents, if_neg h]
      exact foldl_mem_scanl processFile _ _

/-- Witness for `loadEvents_snapshots`: the cleared collection is an
observable snapshot and a prefix of the final collection. -/
theorem loadEvents_snapshots_witness :
    ([] : List Event) ∈ loadSnapshots [fileA, fileB] (PluginState.mk sampleSettings [reviewEvent])
  ∧ (([] : List Event)
       <+: (loadEvents [fileA, fileB] (PluginState.mk sampleSettings [reviewEvent])).events
     ∨ ([] : List Event) = (PluginState.mk sampleSettings [reviewEvent]).events) :=
  ⟨by decide,
    (loadEvents_snapshots [fileA, fileB] (PluginState.mk sampleSettings [reviewEvent])).1
      [] (by decide)⟩

/-- The row-appending fold of the two renderers builds the accumulator
followed by the rendered rows in list order. -/
lemma foldl_rows (l : List Event) :
    ∀ acc : String,
      l.foldl
        (fun eventString event =>
          eventString ++ ("| " ++ formatHHmm event.start ++ " | " ++ event.summary ++ " |\n"))
        acc
      = acc ++ rowsString l := by
  induction l with
  | nil => intro acc; simp [rowsString, String.append_empty]
  | cons e es ih =>
    intro acc
    rw [List.foldl_cons, ih, rowsString, eventRow]
    exact String.append_assoc ..

/-- On a non-empty list, `formatEvents` is the fixed header followed by
the rendered rows. -/
lemma formatEvents_cons (e : Event) (l : List Event) :
    formatEvents (e :: l)
      = "| Time | Event |\n|------|-------|\n" ++ rowsString (e :: l) := by
  have h : (e :: l).length ≠ 0 := by simp
  rw [formatEvents, if_neg h]
  exact foldl_rows (e :: l) _

/-- On a non-empty list, the templater string builder is the fixed
header followed by the rendered rows. -/
lemma buildTodays_cons (e : Event) (l : List Event) :
    buildTodaysEventString (e :: l)
      = "| Time | Event |\n|------|-------|\n" ++ rowsString (e :: l) := by
  have h : (e :: l).length ≠ 0 := by simp
  rw [buildTodaysEventString, if_neg h]
  exact foldl_rows (e :: l) _

/-- A rendered row is never the empty string. -/
lemma eventRow_length_pos (e : Event) : 0 < (eventRow e).length := by
  have h2 : (0 : Nat) < "| ".length := by decide
  simp [eventRow, String.length_append]
  omega

/-- `formatEvents` never returns the empty string, and never returns
the bare header without rows. -/
lemma formatEvents_ne (events : List Event) :
    formatEvents events ≠ ""
  ∧ formatEvents events ≠ "| Time | Event |\n|------|-------|\n" := by
  cases events with
  | nil => exact ⟨by decide, by decide⟩
  | cons e l =>
    have hlen : (formatEvents (e :: l)).length
        = ("| Time | Event |\n|------|-------|\n" : String).length
          + (rowsString (e :: l)).length := by
      rw [formatEvents_cons]
      exact String.length_append ..
    have hrow : 0 < (rowsString (e :: l)).length := by
      have h1 := eventRow_length_pos e
      simp [rowsString, String.length_append]
      omega
    have hpos : (0 : Nat) < ("| Time | Event |\n|------|-------|\n" : String).length := by decide
    have h0 : ("" : String).length = 0 := by decide
    refine ⟨fun hcontr => ?_, fun hcontr => ?_⟩
    · rw [hcontr] at hlen
      omega
    · rw [hcontr] at hlen
      omega

/-- C5: the empty input renders to the exact sentinel strings — the
table renderer returns the literal date sentinel and the today call
sites the literal today sentinel — and on no input does the renderer
produce the empty string or a bare header without rows. -/
theorem formatEvents_sentinels :
    formatEvents [] = "No events for this date."
  ∧ buildTodaysEventString [] = "No events for today."
  ∧ (∀ today : DateTime, getTodaysEventsForTemplater [] today = "No events for today.")
  ∧ ∀ events : List Event,
      formatEvents events ≠ ""
    ∧ formatEvents events ≠ "| Time | Event |\n|------|-------|\n" :=
  ⟨rfl, rfl, fun _ => rfl, formatEvents_ne⟩

/-- C6: for a non-empty list, the rendered table is the fixed two-line
header followed by one row per event in sequence order, each row of the
form `| HH:mm | summary |` with the event's start on the 24-hour local
clock. -/
theorem formatEvents_table (e : Event) (l : List Event) :
    formatEvents (e :: l)
      = "| Time | Event |\n|------|-------|\n" ++ rowsString (e :: l)
  ∧ rowsString (e :: l)
      = ("| " ++ formatHHmm e.start ++ " | " ++ e.summary ++ " |\n") ++ rowsString l :=
  ⟨formatEvents_cons e l, rfl⟩

/-- C10: the two independently written renderers agree: on every
non-empty list they build character-for-character identical strings, and
on the empty list they differ only in the sentinel text. -/
theorem renderers_agree (l : List Event) (h : l ≠ []) :
    buildTodaysEventString l = formatEvents l
  ∧ buildTodaysEventString [] = "No events for today."
  ∧ formatEvents [] = "No events for this date." := by
  refine ⟨?_, rfl, rfl⟩
  cases l with
  | nil => exact absurd rfl h
  | cons e es => rw [buildTodays_cons, formatEvents_cons]

/-- Witness for `renderers_agree` at a one-event list. -/
theorem renderers_agree_witness :
    ([sampleEvent] : List Event) ≠ []
  ∧ (buildTodaysEventString [sampleEvent] = formatEvents [sampleEvent]
     ∧ buildTodaysEventString [] = "No events for today."
     ∧ formatEvents [] = "No events for this date.") :=
  ⟨by decide, renderers_agree [sampleEvent] (by decide)⟩

end DailyTransit
